import Mathlib

/-!
Verification of the `csvargs` row-driven command generator (src/main.rs).

The program reads CSV files, binds each row's fields to variables (named by
the header row, or positionally), renders a template against that binding and
executes the rendered text as a shell command, one command per row.

The shallow embedding below translates the source:
* `serde_json::Value` is only ever `Value::String`, so context values are
  plain `String`s.
* `HashMap<String, Value>` built by `collect()` over an iterator is modelled
  as an association list with insert-override semantics (`hmInsert`,
  `collectHM`): later insertions of an existing key replace its value, new
  keys are appended.  Key set, key count and lookups — everything the claims
  mention — coincide with the Rust `HashMap`.
* `usize::to_string()` is modelled by `natToString`, the usual base-10
  rendering.
* The external collaborators (minijinja parsing/rendering, OS process
  spawning) are deterministic effect-free functions supplied as an `Engine`;
  CSV record reading is modelled by the list of read results a source
  delivers.  The observable side effects (trace lines, command invocations,
  printed output, file opens) are collected in an event trace.
-/

namespace Csvargs

/-- Model of `HashMap<String, String>`: association list whose `insert`
replaces the value of an existing key and appends a fresh key. -/
abbrev Ctx := List (String × String)

/-- One `HashMap::insert`: replace if the key is present, append otherwise. -/
def hmInsert (m : Ctx) (k v : String) : Ctx :=
  if m.any (fun p => p.1 == k) then
    m.map (fun p => if p.1 == k then (k, v) else p)
  else
    m ++ [(k, v)]

/-- `collect::<HashMap<_, _>>()` over a list of key/value pairs: fold
`insert` left to right, so a repeated key keeps its last value. -/
def collectHM (l : List (String × String)) : Ctx :=
  l.foldl (fun m p => hmInsert m p.1 p.2) []

/-- `HashMap::get`, returning the value stored at `k` if any. -/
def hmFind (m : Ctx) (k : String) : Option String :=
  (m.find? (fun p => p.1 == k)).map (fun p => p.2)

/-- The decimal digit character for `d < 10` (`'0'` + d). -/
def digitChar (d : Nat) : Char := Char.ofNat (48 + d)

/-- Fuel-driven accumulator loop producing the decimal digits of `n`,
most significant first, in front of `acc` (the shape of the standard
decimal-printing loop used by `usize::to_string`). -/
def toDecChars (fuel n : Nat) (acc : List Char) : List Char :=
  match fuel with
  | 0 => acc
  | fuel + 1 =>
    let d := digitChar (n % 10)
    if n < 10 then d :: acc else toDecChars fuel (n / 10) (d :: acc)

/-- Model of Rust `usize::to_string()`: decimal representation. -/
def natToString (n : Nat) : String :=
  (toDecChars (n + 1) n []).asString

/-- `create_named_context` from src/main.rs: pair each header name with the
corresponding row field (`record.get(i).unwrap_or("")`), then collect into a
`HashMap`. -/
def create_named_context (headers record : List String) : Ctx :=
  collectHM (headers.enum.map (fun p => (p.2, record.getD p.1 "")))

/-- `create_indexed_context` from src/main.rs: key `i.to_string()` maps to
field `i`, collected into a `HashMap`. -/
def create_indexed_context (record : List String) : Ctx :=
  collectHM (record.enum.map (fun p => (natToString p.1, p.2)))

example : natToString 0 = "0" := by decide
example : natToString 42 = "42" := by decide
example : create_named_context ["name", "age"] ["Alice", "25"]
    = [("name", "Alice"), ("age", "25")] := by decide
example : create_named_context ["a", "b", "c"] ["x"]
    = [("a", "x"), ("b", ""), ("c", "")] := by decide
example : create_named_context ["a", "a"] ["x", "y"] = [("a", "y")] := by decide
example : create_indexed_context ["Alice", "25", "NYC"]
    = [("0", "Alice"), ("1", "25"), ("2", "NYC")] := by decide

/-! ### Operational model of the per-row pipeline -/

/-- Result of one spawned process: `std::process::Output`.  On Unix the exit
status decides success via `status.success()`, i.e. status `0`. -/
structure ExecOutput where
  status : Int
  stdout : String
  stderr : String
  deriving DecidableEq, Repr

/-- The external collaborators, as deterministic effect-free functions:
minijinja template parsing (`Environment::template_from_str`) and rendering
(`Template::render`), and OS process spawning (`Command::output`), with
`Except.error` for the operation failing. -/
structure Engine (T : Type) where
  parse : String → Except String T
  render : T → Ctx → Except String String
  exec : String → Except String ExecOutput

/-- Observable side effects, in the order the program produces them. -/
inductive Event
  | openFile (f : String)
  | traceLine (i : Nat) (cmd : String)
  | execCmd (cmd : String)
  | printOut (s : String)
  deriving DecidableEq, Repr

/-- The error cases of the run, each carrying the positional context the
`anyhow` wrappers attach on the way up. -/
inductive Err
  | noFiles
  | templateParse
  | fileOpen (f : String)
  | headerRead (msg : String)
  | rowRead (i : Nat) (msg : String)
  | templateReparse (i : Nat)
  | renderErr (i : Nat) (msg : String)
  | spawnFail (i : Nat) (msg : String)
  | cmdFailed (i : Nat) (status : Int) (stderr : String)
  | inFile (f : String) (e : Err)
  deriving DecidableEq, Repr

/-- `str::trim`: the string with whitespace stripped from both ends
(computable model of the trimming used for the emptiness check). -/
def strTrim (s : String) : String :=
  (((s.toList.dropWhile Char.isWhitespace).reverse.dropWhile
      Char.isWhitespace).reverse).asString

/-- `execute_command` from src/main.rs: print the trace line, dispatch the
command to the shell, fail with status and captured stderr on a failing exit
status, otherwise print the captured stdout when it is non-empty after
trimming. -/
def execute_command {T : Type} (eng : Engine T) (command : String)
    (row_index : Nat) : List Event × Except Err Unit :=
  let pre := [Event.traceLine row_index command, Event.execCmd command]
  match eng.exec command with
  | .error m => (pre, .error (.spawnFail row_index m))
  | .ok out =>
    if out.status ≠ 0 then
      (pre, .error (.cmdFailed row_index out.status out.stderr))
    else if strTrim out.stdout ≠ "" then
      (pre ++ [Event.printOut out.stdout], .ok ())
    else
      (pre, .ok ())

/-- The context handed to the template: named when a header is present,
indexed otherwise. -/
def rowCtx (headers : Option (List String)) (record : List String) : Ctx :=
  match headers with
  | some h => create_named_context h record
  | none => create_indexed_context record

/-- The record loop of `process_reader`: for each read result, in order —
fail on a read error, build the row context, re-parse the stored template
text, render, execute — stopping at the first failure.  `row_index`
enumerates the data records from 0. -/
def processRows {T : Type} (eng : Engine T) (template_str : String)
    (headers : Option (List String))
    (rows : List (Except String (List String))) (row_index : Nat) :
    List Event × Except Err Unit :=
  match rows with
  | [] => ([], .ok ())
  | result :: rest =>
    match result with
    | .error m => ([], .error (.rowRead row_index m))
    | .ok record =>
      let row_data := rowCtx headers record
      match eng.parse template_str with
      | .error _ => ([], .error (.templateReparse row_index))
      | .ok template =>
        match eng.render template row_data with
        | .error m => ([], .error (.renderErr row_index m))
        | .ok rendered =>
          match execute_command eng rendered row_index with
          | (evs, .error e) => (evs, .error e)
          | (evs, .ok ()) =>
            let r := processRows eng template_str headers rest (row_index + 1)
            (evs ++ r.1, r.2)

/-- `CsvProcessor::process_reader`: in header mode the first record (empty
when the source is empty) supplies the header names and the remaining
records are data; otherwise every record is data. -/
def process_reader {T : Type} (eng : Engine T) (template_str : String)
    (has_header : Bool) (records : List (Except String (List String))) :
    List Event × Except Err Unit :=
  if has_header then
    match records with
    | [] => processRows eng template_str (some []) [] 0
    | .error m :: _ => ([], .error (.headerRead m))
    | .ok h :: rest => processRows eng template_str (some h) rest 0
  else
    processRows eng template_str none records 0

/-- A file system: each path either fails to open or delivers the list of
CSV record read results of that source. -/
abbrev SourceMap := String → Option (List (Except String (List String)))

/-- `CsvProcessor::process_file`: open the source (recording the open) and
process it. -/
def process_file {T : Type} (eng : Engine T) (fs : SourceMap)
    (template_str : String) (has_header : Bool) (path : String) :
    List Event × Except Err Unit :=
  match fs path with
  | none => ([], .error (.fileOpen path))
  | some records =>
    let r := process_reader eng template_str has_header records
    (Event.openFile path :: r.1, r.2)

/-- The processor state: the stored template text and the header flag. -/
structure CsvProcessor where
  template_str : String
  has_header : Bool

/-- `CsvProcessor::new`: validate the template once, eagerly; keep the raw
template text on success. -/
def CsvProcessor.new {T : Type} (eng : Engine T) (template_str : String)
    (has_header : Bool) : Except Err CsvProcessor :=
  match eng.parse template_str with
  | .error _ => .error .templateParse
  | .ok _ => .ok ⟨template_str, has_header⟩

/-- The source loop of `main`: process the files strictly in order, wrapping
the first failure with the failing path and stopping there. -/
def processFiles {T : Type} (eng : Engine T) (fs : SourceMap)
    (p : CsvProcessor) (files : List String) : List Event × Except Err Unit :=
  match files with
  | [] => ([], .ok ())
  | f :: rest =>
    match process_file eng fs p.template_str p.has_header f with
    | (evs, .error e) => (evs, .error (.inFile f e))
    | (evs, .ok ()) =>
      let r := processFiles eng fs p rest
      (evs ++ r.1, r.2)

/-- `main` from src/main.rs: require at least one file, build the processor
(validating the template), then process every file in order. -/
def mainRun {T : Type} (eng : Engine T) (fs : SourceMap) (template : String)
    (no_header : Bool) (files : List String) : List Event × Except Err Unit :=
  if files.isEmpty then ([], .error .noFiles)
  else
    match CsvProcessor.new eng template (!no_header) with
    | .error e => ([], .error e)
    | .ok p => processFiles eng fs p files

/-! ### Spec-modelled templating engine

minijinja itself is an external collaborator (not under src/); the spec
fixes its contract, so rendering is modelled from the spec for the claims
that need it. -/

/-- A compiled template piece: literal text, or a reference to a field of
the `row` context (`row.name` / `row['0']`). -/
inductive Chunk
  | lit (s : String)
  | ref (name : String)
  deriving DecidableEq, Repr

/-- Modelled from the spec: minijinja rendering of a compiled template
against the row context — concatenate the pieces, and "fail
deterministically (RenderError) if the context lacks a variable the
template references". -/
def renderChunks (t : List Chunk) (ctx : Ctx) : Except String String :=
  match t with
  | [] => .ok ""
  | .lit s :: rest => (renderChunks rest ctx).map (fun r => s ++ r)
  | .ref n :: rest =>
    match hmFind ctx n with
    | none => .error ("undefined variable " ++ n)
    | some v => (renderChunks rest ctx).map (fun r => v ++ r)

/-- An engine whose renderer is the spec-modelled one; parsing and process
spawning stay abstract parameters. -/
def mkRenderEngine (parse : String → Except String (List Chunk))
    (exec : String → Except String ExecOutput) : Engine (List Chunk) :=
  { parse := parse, render := renderChunks, exec := exec }

/-! ### Concrete collaborator instances (used to exercise the theorems) -/

instance {ε α : Type} [DecidableEq ε] [DecidableEq α] :
    DecidableEq (Except ε α) := fun x y =>
  match x, y with
  | .error a, .error b =>
    if h : a = b then .isTrue (h ▸ rfl)
    else .isFalse (fun he => h (Except.error.inj he))
  | .error _, .ok _ => .isFalse (fun he => Except.noConfusion he)
  | .ok _, .error _ => .isFalse (fun he => Except.noConfusion he)
  | .ok a, .ok b =>
    if h : a = b then .isTrue (h ▸ rfl)
    else .isFalse (fun he => h (Except.ok.inj he))

/-- A process spawner whose every command exits 0 with no output. -/
def okExec : String → Except String ExecOutput := fun _ => .ok ⟨0, "", ""⟩

/-- A process spawner whose every command exits 1 with stderr `"oops"`. -/
def failExec : String → Except String ExecOutput := fun _ => .ok ⟨1, "", "oops"⟩

/-- A process spawner whose every command exits 0 printing `" hi\n"`. -/
def outExec : String → Except String ExecOutput := fun _ => .ok ⟨0, " hi\n", "warn"⟩

/-- A renderer that echoes field `"0"` of the row and fails on `"boom"`. -/
def echoRender : Unit → Ctx → Except String String := fun _ ctx =>
  match hmFind ctx "0" with
  | some v => if v = "boom" then .error "render failed" else .ok ("echo " ++ v)
  | none => .error "missing field 0"

/-- A renderer that ignores the context. -/
def constRender : Unit → Ctx → Except String String := fun _ _ => .ok "echo hi"

/-- Engine: any template parses, rendering echoes field `"0"`. -/
def echoEngine : Engine Unit :=
  { parse := fun _ => .ok (), render := echoRender, exec := okExec }

/-- Engine: any template parses, constant rendering, every command succeeds. -/
def constEngine : Engine Unit :=
  { parse := fun _ => .ok (), render := constRender, exec := okExec }

/-- Engine whose commands fail. -/
def failEngine : Engine Unit :=
  { parse := fun _ => .ok (), render := echoRender, exec := failExec }

/-- Engine whose commands produce standard output. -/
def outEngine : Engine Unit :=
  { parse := fun _ => .ok (), render := constRender, exec := outExec }

/-- Engine on which no template text parses. -/
def badParseEngine : Engine Unit :=
  { parse := fun _ => .error "Failed to parse template",
    render := fun _ _ => .error "unreachable", exec := okExec }

/-- Two sources: file A with three rows (the third renders to `"boom"`),
file B with one row. -/
def abFs : SourceMap := fun f =>
  if f = "A" then some [.ok ["a"], .ok ["b"], .ok ["boom"]]
  else if f = "B" then some [.ok ["c"]] else none

/-- Two sources: file A with two good rows, file B with one row. -/
def twoRowFs : SourceMap := fun f =>
  if f = "A" then some [.ok ["a"], .ok ["b"]]
  else if f = "B" then some [.ok ["c"]] else none

/-- One empty source named A. -/
def emptyAFs : SourceMap := fun f => if f = "A" then some [] else none

/-- No source opens. -/
def noFs : SourceMap := fun _ => none

/-! ### Decimal rendering is injective -/

lemma digitChar_inj {d e : Nat} (hd : d < 10) (he : e < 10)
    (h : digitChar d = digitChar e) : d = e := by
  interval_cases d <;> interval_cases e <;> simp_all [digitChar]

lemma toDecChars_spec :
    ∀ (fuel n : Nat) (acc : List Char), n ≠ 0 → n ≤ fuel →
      toDecChars fuel n acc = ((Nat.digits 10 n).reverse.map digitChar) ++ acc
  | 0, n, _, hn, hf => absurd (Nat.le_zero.mp hf) hn
  | fuel + 1, n, acc, hn, hf => by
    rw [toDecChars]
    by_cases h10 : n < 10
    · simp only [h10, if_true]
      rw [Nat.digits_of_lt 10 n hn h10]
      simp [Nat.mod_eq_of_lt h10]
    · simp only [h10, if_false]
      have hdiv_ne : n / 10 ≠ 0 := by
        have : 10 ≤ n := Nat.le_of_not_lt h10
        exact Nat.ne_of_gt (Nat.div_pos this (by norm_num))
      have hdiv_le : n / 10 ≤ fuel := by
        have h1 : n / 10 < n := Nat.div_lt_self (Nat.pos_of_ne_zero hn) (by norm_num)
        omega
      rw [toDecChars_spec fuel (n / 10) _ hdiv_ne hdiv_le]
      rw [Nat.digits_def' (by norm_num : (1:ℕ) < 10) (Nat.pos_of_ne_zero hn)]
      simp

lemma natToString_eq_of_ne_zero {n : Nat} (hn : n ≠ 0) :
    natToString n = ((Nat.digits 10 n).reverse.map digitChar).asString := by
  rw [natToString, toDecChars_spec (n + 1) n [] hn (Nat.le_succ n), List.append_nil]

lemma map_digitChar_inj :
    ∀ (l₁ l₂ : List Nat), (∀ d ∈ l₁, d < 10) → (∀ d ∈ l₂, d < 10) →
      l₁.map digitChar = l₂.map digitChar → l₁ = l₂
  | [], [], _, _, _ => rfl
  | [], _ :: _, _, _, h => by simp at h
  | _ :: _, [], _, _, h => by simp at h
  | a :: l₁, b :: l₂, h₁, h₂, h => by
    simp only [List.map_cons, List.cons.injEq] at h
    have ha := h₁ a (List.mem_cons_self a l₁)
    have hb := h₂ b (List.mem_cons_self b l₂)
    have := digitChar_inj ha hb h.1
    have := map_digitChar_inj l₁ l₂
      (fun d hd => h₁ d (List.mem_cons_of_mem a hd))
      (fun d hd => h₂ d (List.mem_cons_of_mem b hd)) h.2
    simp_all

lemma asString_toList (l : List Char) : (List.asString l).toList = l := rfl

lemma natToString_toList {n : Nat} (hn : n ≠ 0) :
    (natToString n).toList = (Nat.digits 10 n).reverse.map digitChar := by
  rw [natToString_eq_of_ne_zero hn, asString_toList]

lemma natToString_toList_zero : (natToString 0).toList = ['0'] := by decide

lemma digits_map_ne_singleton_zero {n : Nat} (hn : n ≠ 0) :
    (Nat.digits 10 n).reverse.map digitChar ≠ ['0'] := by
  intro h0
  have hlen := congrArg List.length h0
  simp only [List.length_map, List.length_reverse, List.length_singleton] at hlen
  obtain ⟨d, hd⟩ := List.length_eq_one.mp hlen
  rw [hd] at h0
  simp only [List.reverse_singleton, List.map_cons, List.map_nil,
    List.cons.injEq, and_true] at h0
  have hdlt : d < 10 :=
    Nat.digits_lt_base (by norm_num) (hd ▸ List.mem_singleton_self d)
  have hd0 : d = 0 := by
    apply digitChar_inj hdlt (by norm_num)
    rw [h0]
    decide
  have hlast := Nat.getLast_digit_ne_zero 10 hn
  rw [List.getLast_congr _ (List.cons_ne_nil d []) hd] at hlast
  simp [hd0] at hlast

lemma hmFind_nil (k : String) : hmFind [] k = none := rfl

lemma find?_map_replace_of_mem (k' v : String) :
    ∀ m : Ctx, m.any (fun p => p.1 == k') = true →
      (m.map (fun p => if p.1 == k' then (k', v) else p)).find?
        (fun p => p.1 == k') = some (k', v)
  | [], h => by simp at h
  | q :: tl, h => by
    by_cases hq : q.1 = k'
    · simp [hq]
    · have htl : tl.any (fun p => p.1 == k') = true := by
        simp only [List.any_cons] at h
        simpa [hq] using h
      simpa [hq] using find?_map_replace_of_mem k' v tl htl

lemma find?_map_replace_of_ne (k' v k : String) (hne : k ≠ k') :
    ∀ m : Ctx, (m.map (fun p => if p.1 == k' then (k', v) else p)).find?
        (fun p => p.1 == k) = m.find? (fun p => p.1 == k)
  | [] => rfl
  | q :: tl => by
    by_cases hq : q.1 = k'
    · have hqk : ¬ q.1 = k := by rw [hq]; exact fun h => hne h.symm
      simpa [hq, hqk, Ne.symm hne] using find?_map_replace_of_ne k' v k hne tl
    · by_cases hqk : q.1 = k
      · have hfq : (if (q.1 == k') = true then (k', v) else q) = q := by
          simp [hq]
        rw [List.map_cons, hfq, List.find?_cons_of_pos _ (by simpa using hqk),
          List.find?_cons_of_pos _ (by simpa using hqk)]
      · simpa [hq, hqk] using find?_map_replace_of_ne k' v k hne tl

lemma hmFind_hmInsert (m : Ctx) (k' v k : String) :
    hmFind (hmInsert m k' v) k = if k = k' then some v else hmFind m k := by
  unfold hmInsert hmFind
  by_cases hmem : m.any (fun p => p.1 == k') = true
  · rw [if_pos hmem]
    by_cases hk : k = k'
    · subst hk
      rw [find?_map_replace_of_mem k v m hmem]
      simp
    · rw [find?_map_replace_of_ne k' v k hk m, if_neg hk]
  · rw [if_neg hmem]
    have hnone : m.find? (fun p => p.1 == k') = none := by
      rw [List.find?_eq_none]
      intro p hp hpk
      exact hmem (List.any_eq_true.mpr ⟨p, hp, hpk⟩)
    by_cases hk : k = k'
    · subst hk
      rw [List.find?_append, hnone]
      simp
    · have : List.find? (fun p => p.1 == k) [(k', v)] = none := by
        simp [Ne.symm hk]
      rw [List.find?_append, this, if_neg hk]
      simp

lemma collectHM_concat (l : List (String × String)) (p : String × String) :
    collectHM (l ++ [p]) = hmInsert (collectHM l) p.1 p.2 := by
  simp [collectHM, List.foldl_append]

/-- Looking a key up in a collected `HashMap` returns the value of its last
binding in the pair list (later insertions win). -/
lemma hmFind_collectHM (l : List (String × String)) (k : String) :
    hmFind (collectHM l) k
      = (l.reverse.find? (fun p => p.1 == k)).map (fun p => p.2) := by
  induction l using List.reverseRecOn with
  | nil => rfl
  | append_singleton l p ih =>
    rw [collectHM_concat, hmFind_hmInsert, List.reverse_append]
    by_cases hk : k = p.1
    · subst hk
      simp
    · simp only [List.reverse_singleton, List.singleton_append]
      rw [List.find?_cons_of_neg _ (by simpa using fun h => hk h.symm)]
      rw [if_neg hk, ih]

/-- Collecting a pair list with pairwise-distinct keys into a `HashMap`
keeps it unchanged: every insertion is of a fresh key. -/
lemma collectHM_of_nodup :
    ∀ l : List (String × String), (l.map Prod.fst).Nodup → collectHM l = l := by
  intro l
  induction l using List.reverseRecOn with
  | nil => intro _; rfl
  | append_singleton l p ih =>
    intro hnd
    rw [List.map_append, List.nodup_append] at hnd
    obtain ⟨hl, -, hdisj⟩ := hnd
    rw [collectHM_concat, ih hl]
    have hfresh : l.any (fun q => q.1 == p.1) ≠ true := by
      intro hx
      rw [List.any_eq_true] at hx
      obtain ⟨q, hq, hqe⟩ := hx
      have hqe' : q.1 = p.1 := by simpa using hqe
      exact hdisj (List.mem_map_of_mem Prod.fst hq) (by simp [hqe'])
    unfold hmInsert
    rw [if_neg hfresh]

lemma natToString_injective : Function.Injective natToString := by
  intro m n h
  have hdata := congrArg String.toList h
  by_cases hm : m = 0 <;> by_cases hn : n = 0
  · omega
  · subst hm
    rw [natToString_toList_zero, natToString_toList hn] at hdata
    exact absurd hdata.symm (digits_map_ne_singleton_zero hn)
  · subst hn
    rw [natToString_toList hm, natToString_toList_zero] at hdata
    exact absurd hdata (digits_map_ne_singleton_zero hm)
  · rw [natToString_toList hm, natToString_toList hn] at hdata
    have hmap := map_digitChar_inj _ _
      (fun d hd => Nat.digits_lt_base (by norm_num) (List.mem_reverse.mp hd))
      (fun d hd => Nat.digits_lt_base (by norm_num) (List.mem_reverse.mp hd)) hdata
    exact Nat.digits.injective 10 (List.reverse_injective hmap)

/-! ### Shape of the two row contexts -/

lemma hmFind_of_nodup_mem :
    ∀ l : Ctx, (l.map Prod.fst).Nodup → ∀ {k v : String}, (k, v) ∈ l →
      hmFind l k = some v
  | [], _, _, _, hmem => absurd hmem (List.not_mem_nil _)
  | q :: tl, hnd, k, v, hmem => by
    rw [List.map_cons, List.nodup_cons] at hnd
    rcases List.mem_cons.mp hmem with heq | htl
    · subst heq
      simp [hmFind]
    · by_cases hqk : q.1 = k
      · exact absurd (hqk ▸ List.mem_map_of_mem Prod.fst htl) hnd.1
      · have := hmFind_of_nodup_mem tl hnd.2 htl
        simpa [hmFind, hqk] using this

lemma named_pairs_keys (H R : List String) :
    ((H.enum.map (fun p => (p.2, R.getD p.1 ""))).map Prod.fst) = H := by
  rw [List.map_map]
  exact List.enumFrom_map_snd 0 H

lemma create_named_context_eq (H R : List String) (hnd : H.Nodup) :
    create_named_context H R = H.enum.map (fun p => (p.2, R.getD p.1 "")) := by
  unfold create_named_context
  apply collectHM_of_nodup
  rw [named_pairs_keys]
  exact hnd

lemma create_named_context_keys (H R : List String) (hnd : H.Nodup) :
    (create_named_context H R).map Prod.fst = H := by
  rw [create_named_context_eq H R hnd, named_pairs_keys]

lemma create_named_context_length (H R : List String) (hnd : H.Nodup) :
    (create_named_context H R).length = H.length := by
  have := congrArg List.length (create_named_context_keys H R hnd)
  simpa using this

lemma create_named_context_find (H R : List String) (hnd : H.Nodup)
    (i : Nat) (hi : i < H.length) :
    hmFind (create_named_context H R) (H.get ⟨i, hi⟩) = some (R.getD i "") := by
  rw [create_named_context_eq H R hnd]
  apply hmFind_of_nodup_mem
  · rw [named_pairs_keys]
    exact hnd
  · refine List.mem_map.mpr ⟨(i, H.get ⟨i, hi⟩), ?_, rfl⟩
    rw [List.mk_mem_enum_iff_getElem?]
    simp [List.get_eq_getElem, List.getElem?_eq_getElem hi]

lemma indexed_pairs_keys (R : List String) :
    ((R.enum.map (fun p => (natToString p.1, p.2))).map Prod.fst)
      = (List.range R.length).map natToString := by
  rw [List.map_map]
  have h1 : (Prod.fst ∘ fun p : Nat × String => (natToString p.1, p.2))
      = natToString ∘ Prod.fst := rfl
  rw [h1, ← List.map_map]
  congr 1
  rw [List.range_eq_range']
  exact List.enumFrom_map_fst 0 R

lemma create_indexed_context_eq (R : List String) :
    create_indexed_context R = R.enum.map (fun p => (natToString p.1, p.2)) := by
  unfold create_indexed_context
  apply collectHM_of_nodup
  rw [indexed_pairs_keys]
  exact (List.nodup_range _).map natToString_injective

lemma create_indexed_context_keys (R : List String) :
    (create_indexed_context R).map Prod.fst
      = (List.range R.length).map natToString := by
  rw [create_indexed_context_eq, indexed_pairs_keys]

lemma create_indexed_context_length (R : List String) :
    (create_indexed_context R).length = R.length := by
  have := congrArg List.length (create_indexed_context_keys R)
  simpa using this

lemma create_indexed_context_find (R : List String) (i : Nat) (hi : i < R.length) :
    hmFind (create_indexed_context R) (natToString i) = some (R.get ⟨i, hi⟩) := by
  rw [create_indexed_context_eq]
  apply hmFind_of_nodup_mem
  · rw [indexed_pairs_keys]
    exact (List.nodup_range _).map natToString_injective
  · refine List.mem_map.mpr ⟨(i, R.get ⟨i, hi⟩), ?_, rfl⟩
    rw [List.mk_mem_enum_iff_getElem?]
    simp [List.get_eq_getElem, List.getElem?_eq_getElem hi]

/-- Appending one header extends the named context by one insertion. -/
lemma create_named_context_concat (H R : List String) (h : String) :
    create_named_context (H ++ [h]) R
      = hmInsert (create_named_context H R) h (R.getD H.length "") := by
  unfold create_named_context
  rw [show (H ++ [h]).enum = H.enum ++ [(H.length, h)] by
    rw [List.enum, List.enumFrom_append]
    simp [List.enumFrom_singleton]]
  rw [List.map_append, List.map_singleton, collectHM_concat]

/-- A header position at or past the row length binds to the empty string —
with no distinctness assumption: the winning (last) binding of that name
sits at an index at least as large, hence also past the row. -/
lemma create_named_context_trailing :
    ∀ (H R : List String) (i : Nat) (hi : i < H.length), R.length ≤ i →
      hmFind (create_named_context H R) (H.get ⟨i, hi⟩) = some "" := by
  intro H
  induction H using List.reverseRecOn with
  | nil => intro R i hi; simp at hi
  | append_singleton H h ih =>
    intro R i hi hR
    rw [create_named_context_concat, hmFind_hmInsert]
    by_cases hlast : i = H.length
    · subst hlast
      have hget : (H ++ [h]).get ⟨H.length, hi⟩ = h := by
        simp [List.get_eq_getElem]
      rw [hget, if_pos rfl, List.getD_eq_default]
      omega
    · have hi' : i < H.length := by
        rw [List.length_append, List.length_singleton] at hi
        omega
      have hget : (H ++ [h]).get ⟨i, hi⟩ = H.get ⟨i, hi'⟩ := by
        simp [List.get_eq_getElem, List.getElem_append_left hi']
      rw [hget]
      by_cases hkey : H.get ⟨i, hi'⟩ = h
      · rw [if_pos hkey, List.getD_eq_default]
        omega
      · rw [if_neg hkey]
        exact ih R i hi' hR

/-! ### Equation lemmas for the pipeline -/

lemma execute_command_spawnErr {T : Type} (eng : Engine T) {c : String}
    (i : Nat) {m : String} (he : eng.exec c = .error m) :
    execute_command eng c i
      = ([Event.traceLine i c, Event.execCmd c], .error (.spawnFail i m)) := by
  simp [execute_command, he]

lemma execute_command_fail {T : Type} (eng : Engine T) {c : String} (i : Nat)
    {out : ExecOutput} (he : eng.exec c = .ok out) (hs : out.status ≠ 0) :
    execute_command eng c i
      = ([Event.traceLine i c, Event.execCmd c],
         .error (.cmdFailed i out.status out.stderr)) := by
  simp [execute_command, he, hs]

lemma execute_command_ok {T : Type} (eng : Engine T) {c : String} (i : Nat)
    {out : ExecOutput} (he : eng.exec c = .ok out) (hs : out.status = 0) :
    execute_command eng c i
      = ([Event.traceLine i c, Event.execCmd c]
          ++ (if strTrim out.stdout = "" then [] else [Event.printOut out.stdout]),
         .ok ()) := by
  by_cases ht : strTrim out.stdout = "" <;> simp [execute_command, he, hs, ht]

lemma processRows_nil {T : Type} (eng : Engine T) (ts : String)
    (hdrs : Option (List String)) (i : Nat) :
    processRows eng ts hdrs [] i = ([], .ok ()) := rfl

lemma processRows_readErr {T : Type} (eng : Engine T) (ts : String)
    (hdrs : Option (List String)) (m : String)
    (rest : List (Except String (List String))) (i : Nat) :
    processRows eng ts hdrs (.error m :: rest) i
      = ([], .error (.rowRead i m)) := rfl

lemma processRows_parseErr {T : Type} (eng : Engine T) {ts : String}
    (hdrs : Option (List String)) (record : List String)
    (rest : List (Except String (List String))) (i : Nat) {m : String}
    (hp : eng.parse ts = .error m) :
    processRows eng ts hdrs (.ok record :: rest) i
      = ([], .error (.templateReparse i)) := by
  simp [processRows, hp]

lemma processRows_renderErr {T : Type} (eng : Engine T) {ts : String}
    {hdrs : Option (List String)} {record : List String}
    (rest : List (Except String (List String))) (i : Nat) {t : T} {m : String}
    (hp : eng.parse ts = .ok t)
    (hr : eng.render t (rowCtx hdrs record) = .error m) :
    processRows eng ts hdrs (.ok record :: rest) i
      = ([], .error (.renderErr i m)) := by
  simp [processRows, hp, hr]

lemma processRows_execErr {T : Type} (eng : Engine T) {ts : String}
    {hdrs : Option (List String)} {record : List String}
    (rest : List (Except String (List String))) {i : Nat} {t : T} {c : String}
    {evs : List Event} {er : Err}
    (hp : eng.parse ts = .ok t)
    (hr : eng.render t (rowCtx hdrs record) = .ok c)
    (hec : execute_command eng c i = (evs, .error er)) :
    processRows eng ts hdrs (.ok record :: rest) i = (evs, .error er) := by
  simp [processRows, hp, hr, hec]

lemma processRows_stepOk {T : Type} (eng : Engine T) {ts : String}
    {hdrs : Option (List String)} {record : List String}
    (rest : List (Except String (List String))) {i : Nat} {t : T} {c : String}
    {evs : List Event}
    (hp : eng.parse ts = .ok t)
    (hr : eng.render t (rowCtx hdrs record) = .ok c)
    (hec : execute_command eng c i = (evs, .ok ())) :
    processRows eng ts hdrs (.ok record :: rest) i
      = (evs ++ (processRows eng ts hdrs rest (i + 1)).1,
         (processRows eng ts hdrs rest (i + 1)).2) := by
  simp [processRows, hp, hr, hec]

lemma process_file_none {T : Type} (eng : Engine T) {fs : SourceMap}
    (ts : String) (hh : Bool) {f : String} (h : fs f = none) :
    process_file eng fs ts hh f = ([], .error (.fileOpen f)) := by
  simp [process_file, h]

lemma process_file_some {T : Type} (eng : Engine T) {fs : SourceMap}
    (ts : String) (hh : Bool) {f : String}
    {recs : List (Except String (List String))} (h : fs f = some recs) :
    process_file eng fs ts hh f
      = (Event.openFile f :: (process_reader eng ts hh recs).1,
         (process_reader eng ts hh recs).2) := by
  simp [process_file, h]

lemma processFiles_nil {T : Type} (eng : Engine T) (fs : SourceMap)
    (p : CsvProcessor) : processFiles eng fs p [] = ([], .ok ()) := rfl

lemma processFiles_consErr {T : Type} (eng : Engine T) {fs : SourceMap}
    {p : CsvProcessor} {f : String} (rest : List String)
    {evs : List Event} {e : Err}
    (h : process_file eng fs p.template_str p.has_header f = (evs, .error e)) :
    processFiles eng fs p (f :: rest) = (evs, .error (.inFile f e)) := by
  simp [processFiles, h]

lemma processFiles_consOk {T : Type} (eng : Engine T) {fs : SourceMap}
    {p : CsvProcessor} {f : String} (rest : List String) {evs : List Event}
    (h : process_file eng fs p.template_str p.has_header f = (evs, .ok ())) :
    processFiles eng fs p (f :: rest)
      = (evs ++ (processFiles eng fs p rest).1,
         (processFiles eng fs p rest).2) := by
  simp [processFiles, h]

lemma mainRun_noFiles {T : Type} (eng : Engine T) (fs : SourceMap)
    (t : String) (nh : Bool) : mainRun eng fs t nh [] = ([], .error .noFiles) :=
  rfl

lemma mainRun_parseErr {T : Type} (eng : Engine T) (fs : SourceMap)
    {t : String} (nh : Bool) {files : List String} {m : String}
    (hne : files ≠ []) (hp : eng.parse t = .error m) :
    mainRun eng fs t nh files = ([], .error .templateParse) := by
  simp [mainRun, hne, CsvProcessor.new, hp]

lemma mainRun_ok {T : Type} (eng : Engine T) (fs : SourceMap)
    {t : String} (nh : Bool) {files : List String} {tm : T}
    (hne : files ≠ []) (hp : eng.parse t = .ok tm) :
    mainRun eng fs t nh files = processFiles eng fs ⟨t, !nh⟩ files := by
  simp [mainRun, hne, CsvProcessor.new, hp]

/-! ### The record loop never opens a file -/

lemma execute_command_no_openFile {T : Type} (eng : Engine T) (c : String)
    (i : Nat) (g : String) :
    Event.openFile g ∉ (execute_command eng c i).1 := by
  unfold execute_command
  rcases eng.exec c with m | out
  · simp
  · by_cases h1 : out.status ≠ 0
    · simp [h1]
    · by_cases h2 : strTrim out.stdout ≠ "" <;> simp [h1, h2]

lemma processRows_no_openFile {T : Type} (eng : Engine T) (ts : String)
    (hdrs : Option (List String)) :
    ∀ (rows : List (Except String (List String))) (i : Nat) (g : String),
      Event.openFile g ∉ (processRows eng ts hdrs rows i).1
  | [], i, g => by simp [processRows]
  | .error m :: rest, i, g => by simp [processRows]
  | .ok record :: rest, i, g => by
    rcases hp : eng.parse ts with m | t
    · rw [processRows_parseErr eng hdrs record rest i hp]
      simp
    · rcases hr : eng.render t (rowCtx hdrs record) with m | c
      · rw [processRows_renderErr eng rest i hp hr]
        simp
      · rcases hec : execute_command eng c i with ⟨evs, res⟩
        have hevs : Event.openFile g ∉ evs := by
          have := execute_command_no_openFile eng c i g
          rw [hec] at this
          exact this
        rcases res with e | u
        · rw [processRows_execErr eng rest hp hr hec]
          exact hevs
        · cases u
          rw [processRows_stepOk eng rest hp hr hec]
          intro hmem
          rcases List.mem_append.mp hmem with h | h
          · exact hevs h
          · exact processRows_no_openFile eng ts hdrs rest (i + 1) g h

lemma process_reader_no_openFile {T : Type} (eng : Engine T) (ts : String)
    (hh : Bool) (recs : List (Except String (List String))) (g : String) :
    Event.openFile g ∉ (process_reader eng ts hh recs).1 := by
  unfold process_reader
  by_cases h : hh = true
  · rcases recs with _ | ⟨r, rest⟩
    · simp [h, processRows_no_openFile]
    · rcases r with m | hd
      · simp [h]
      · simp [h, processRows_no_openFile]
  · simp [h, processRows_no_openFile]

lemma process_reader_noHeader {T : Type} (eng : Engine T) (ts : String)
    (recs : List (Except String (List String))) :
    process_reader eng ts false recs = processRows eng ts none recs 0 := by
  simp [process_reader]

lemma process_reader_headerCons {T : Type} (eng : Engine T) (ts : String)
    (h : List String) (rest : List (Except String (List String))) :
    process_reader eng ts true (.ok h :: rest)
      = processRows eng ts (some h) rest 0 := by
  simp [process_reader]

lemma process_reader_empty {T : Type} (eng : Engine T) (ts : String) (hh : Bool) :
    process_reader eng ts hh [] = ([], .ok ()) := by
  cases hh <;> simp [process_reader, processRows]

lemma process_file_open_only_self {T : Type} (eng : Engine T) (fs : SourceMap)
    (ts : String) (hh : Bool) (f g : String) :
    Event.openFile g ∈ (process_file eng fs ts hh f).1 → g = f := by
  unfold process_file
  rcases h : fs f with _ | recs
  · simp
  · intro hg
    rcases List.mem_cons.mp hg with he | hin
    · exact Event.openFile.inj he
    · exact absurd hin (process_reader_no_openFile eng ts hh recs g)

lemma processFiles_err_open_only_head {T : Type} (eng : Engine T)
    (fs : SourceMap) (p : CsvProcessor) (f : String) (rest : List String)
    (evs : List Event) (e : Err)
    (h : process_file eng fs p.template_str p.has_header f = (evs, .error e)) :
    ∀ g, Event.openFile g ∈ (processFiles eng fs p (f :: rest)).1 → g = f := by
  rw [processFiles_consErr eng rest h]
  intro g hg
  apply process_file_open_only_self eng fs p.template_str p.has_header f g
  rw [h]
  exact hg

/-- A successful `CsvProcessor::new` means the template text parsed. -/
lemma new_ok_parse_ok {T : Type} {eng : Engine T} {ts : String} {hh : Bool}
    {p : CsvProcessor} (h : CsvProcessor.new eng ts hh = .ok p) :
    ∃ t, eng.parse ts = .ok t := by
  unfold CsvProcessor.new at h
  rcases hp : eng.parse ts with m | t
  · rw [hp] at h
    exact absurd h (by simp)
  · exact ⟨t, rfl⟩

/-- A template that references a field missing from the context always fails
to render. -/
lemma renderChunks_missing :
    ∀ (t : List Chunk) (ctx : Ctx) (n : String), Chunk.ref n ∈ t →
      hmFind ctx n = none → ∃ m, renderChunks t ctx = .error m
  | [], _, _, href, _ => absurd href (List.not_mem_nil _)
  | .lit s :: rest, ctx, n, href, hmiss => by
    have hrest : Chunk.ref n ∈ rest := by
      rcases List.mem_cons.mp href with h | h
      · exact absurd h (by simp)
      · exact h
    obtain ⟨m, hm⟩ := renderChunks_missing rest ctx n hrest hmiss
    exact ⟨m, by simp [renderChunks, hm, Except.map]⟩
  | .ref n' :: rest, ctx, n, href, hmiss => by
    rcases hfind : hmFind ctx n' with _ | v
    · exact ⟨"undefined variable " ++ n', by simp [renderChunks, hfind]⟩
    · have hne : n' ≠ n := by
        intro he
        rw [he, hmiss] at hfind
        exact absurd hfind (by simp)
      have hrest : Chunk.ref n ∈ rest := by
        rcases List.mem_cons.mp href with h | h
        · exact absurd (Chunk.ref.inj h.symm) hne
        · exact h
      obtain ⟨m, hm⟩ := renderChunks_missing rest ctx n hrest hmiss
      exact ⟨m, by simp [renderChunks, hfind, hm, Except.map]⟩

/-! ### The claims -/

/-- Claim C1, counterexample: with the duplicate header sequence
`H = ["a", "a"]` and row `R = ["x", "y"]` the named context has a single
key (`"a"`, bound last-wins to `"y"`), not `|H| = 2` keys, because the
`HashMap` collapses equal header names. -/
theorem named_context_c1_counterexample :
    (create_named_context ["a", "a"] ["x", "y"]).length = 1
    ∧ (["a", "a"] : List String).length = 2
    ∧ create_named_context ["a", "a"] ["x", "y"] = [("a", "y")] := by
  decide

/-- Claim C1 (amended: header names pairwise distinct — with duplicates the
map keeps one key per distinct name, last occurrence winning): the named
context has exactly `|H|` keys, the keys are precisely the entries of `H`
(so fields of `R` beyond `|H|` produce no key), and key `H[i]` is bound to
`R[i]` when `i < |R|` and to `""` otherwise. -/
theorem named_context_c1 (H R : List String) (hnd : H.Nodup) :
    (create_named_context H R).length = H.length
    ∧ (create_named_context H R).map Prod.fst = H
    ∧ ∀ (i : Nat) (hi : i < H.length),
        hmFind (create_named_context H R) (H.get ⟨i, hi⟩) = some (R.getD i "") :=
  ⟨create_named_context_length H R hnd,
   create_named_context_keys H R hnd,
   fun i hi => create_named_context_find H R hnd i hi⟩

/-- Claim C1, witness: the amended theorem applied to the header
`["name", "age", "city"]` and the shorter row `["Alice"]`. -/
theorem named_context_c1_witness :
    (create_named_context ["name", "age", "city"] ["Alice"]).length = 3
    ∧ hmFind (create_named_context ["name", "age", "city"] ["Alice"]) "name"
        = some "Alice"
    ∧ hmFind (create_named_context ["name", "age", "city"] ["Alice"]) "age"
        = some "" := by
  have h := named_context_c1 ["name", "age", "city"] ["Alice"] (by decide)
  refine ⟨h.1, ?_, ?_⟩
  · have := h.2.2 0 (by decide)
    simpa using this
  · have := h.2.2 1 (by decide)
    simpa using this

/-- Claim C2: the indexed context of a row `R` has exactly `|R|` keys,
the keys are the decimal strings of `0 .. |R| - 1`, and key `string(i)`
is bound to field `R[i]`. -/
theorem indexed_context_c2 (R : List String) :
    (create_indexed_context R).length = R.length
    ∧ (create_indexed_context R).map Prod.fst
        = (List.range R.length).map natToString
    ∧ ∀ (i : Nat) (hi : i < R.length),
        hmFind (create_indexed_context R) (natToString i)
          = some (R.get ⟨i, hi⟩) :=
  ⟨create_indexed_context_length R,
   create_indexed_context_keys R,
   fun i hi => create_indexed_context_find R i hi⟩

/-- Claim C2, witness: the theorem applied to `["Alice", "25", "NYC"]` —
the keys evaluate to the decimal strings `"0"`, `"1"`, `"2"`. -/
theorem indexed_context_c2_witness :
    (create_indexed_context ["Alice", "25", "NYC"]).map Prod.fst
      = ["0", "1", "2"]
    ∧ hmFind (create_indexed_context ["Alice", "25", "NYC"]) "1" = some "25" := by
  have h := indexed_context_c2 ["Alice", "25", "NYC"]
  constructor
  · rw [h.2.1]
    decide
  · have := h.2.2 1 (by decide)
    have e : natToString 1 = "1" := by decide
    rw [e] at this
    simpa using this

/-- Claim C3: in a multi-file run where rows 0 and 1 of the first file
render and execute successfully and row 2 fails to render, the run's trace
is exactly the open of the first file followed by the command events of
rows 0 and 1 — the commands for rows 0 and 1 were executed, row 2 and the
following rows produce nothing, the error is the render failure at row 2
enriched with the source name, and no later source is ever opened. -/
theorem render_fail_row2_c3 {T : Type} (eng : Engine T) (fs : SourceMap)
    (tmpl fA : String) (restFiles : List String) (r0 r1 r2 : List String)
    (tail : List (Except String (List String))) (t : T) (c0 c1 : String)
    (o0 o1 : ExecOutput) (m : String)
    (hp : eng.parse tmpl = .ok t)
    (hfs : fs fA = some ([.ok r0, .ok r1, .ok r2] ++ tail))
    (hr0 : eng.render t (rowCtx none r0) = .ok c0)
    (he0 : eng.exec c0 = .ok o0) (hs0 : o0.status = 0)
    (hr1 : eng.render t (rowCtx none r1) = .ok c1)
    (he1 : eng.exec c1 = .ok o1) (hs1 : o1.status = 0)
    (hr2 : eng.render t (rowCtx none r2) = .error m) :
    mainRun eng fs tmpl true (fA :: restFiles)
      = (Event.openFile fA
          :: ([Event.traceLine 0 c0, Event.execCmd c0]
              ++ (if strTrim o0.stdout = "" then [] else [Event.printOut o0.stdout])
              ++ ([Event.traceLine 1 c1, Event.execCmd c1]
                  ++ (if strTrim o1.stdout = "" then []
                      else [Event.printOut o1.stdout]))),
         .error (.inFile fA (.renderErr 2 m)))
    ∧ ∀ g, Event.openFile g ∈ (mainRun eng fs tmpl true (fA :: restFiles)).1 →
        g = fA := by
  have hrows : processRows eng tmpl none ([.ok r0, .ok r1, .ok r2] ++ tail) 0
      = ([Event.traceLine 0 c0, Event.execCmd c0]
          ++ (if strTrim o0.stdout = "" then [] else [Event.printOut o0.stdout])
          ++ ([Event.traceLine 1 c1, Event.execCmd c1]
              ++ (if strTrim o1.stdout = "" then [] else [Event.printOut o1.stdout])),
         .error (.renderErr 2 m)) := by
    rw [show ([Except.ok r0, Except.ok r1, Except.ok r2] ++ tail
        : List (Except String (List String)))
        = .ok r0 :: (.ok r1 :: (.ok r2 :: tail)) from rfl]
    rw [processRows_stepOk eng _ hp hr0 (execute_command_ok eng 0 he0 hs0)]
    rw [show (0 + 1 : Nat) = 1 from rfl]
    rw [processRows_stepOk eng _ hp hr1 (execute_command_ok eng 1 he1 hs1)]
    rw [show (1 + 1 : Nat) = 2 from rfl]
    rw [processRows_renderErr eng tail 2 hp hr2]
    simp
  have hpf : process_file eng fs tmpl false fA
      = (Event.openFile fA
          :: ([Event.traceLine 0 c0, Event.execCmd c0]
              ++ (if strTrim o0.stdout = "" then [] else [Event.printOut o0.stdout])
              ++ ([Event.traceLine 1 c1, Event.execCmd c1]
                  ++ (if strTrim o1.stdout = "" then []
                      else [Event.printOut o1.stdout]))),
         .error (.renderErr 2 m)) := by
    rw [process_file_some eng tmpl false hfs, process_reader_noHeader, hrows]
  have hmain : mainRun eng fs tmpl true (fA :: restFiles)
      = processFiles eng fs ⟨tmpl, false⟩ (fA :: restFiles) :=
    mainRun_ok eng fs true (List.cons_ne_nil fA restFiles) hp
  refine ⟨?_, ?_⟩
  · rw [hmain, processFiles_consErr eng restFiles hpf]
  · intro g hg
    rw [hmain] at hg
    exact processFiles_err_open_only_head eng fs ⟨tmpl, false⟩ fA restFiles
      _ _ hpf g hg

/-- Claim C3, witness: with the echo engine over sources A and B, where
row 2 of A renders to `"boom"` and fails, the run executes the commands of
rows 0 and 1 of A and never opens B. -/
theorem render_fail_row2_c3_witness :
    mainRun echoEngine abFs "T" true ["A", "B"]
      = ([Event.openFile "A", Event.traceLine 0 "echo a", Event.execCmd "echo a",
          Event.traceLine 1 "echo b", Event.execCmd "echo b"],
         .error (.inFile "A" (.renderErr 2 "render failed")))
    ∧ ∀ g, Event.openFile g ∈ (mainRun echoEngine abFs "T" true ["A", "B"]).1 →
        g = "A" := by
  have h := render_fail_row2_c3 echoEngine abFs "T" "A" ["B"] ["a"] ["b"]
    ["boom"] [] () "echo a" "echo b" ⟨0, "", ""⟩ ⟨0, "", ""⟩ "render failed"
    rfl (by decide) (by decide) (by decide) (by decide) (by decide)
    (by decide) (by decide) (by decide)
  refine ⟨?_, h.2⟩
  rw [h.1]
  decide

/-- Claim C4, counterexample: with an empty source list the run aborts with
the no-sources configuration error, not with a template error, even though
the template fails to compile — `main` checks for missing files before it
builds the processor. -/
theorem template_error_c4_counterexample :
    badParseEngine.parse "x" = .error "Failed to parse template"
    ∧ mainRun badParseEngine noFs "x" false [] = ([], .error .noFiles)
    ∧ Err.noFiles ≠ Err.templateParse := by
  refine ⟨rfl, rfl, by decide⟩

/-- Claim C4 (amended: at least one source given — with zero sources the
run aborts with the no-sources configuration error instead, still before
any row is read and with zero commands executed): a template that fails to
compile aborts the run with a template error, with an empty trace — no
file opened, no row read, no command executed on any source. -/
theorem template_error_c4 {T : Type} (eng : Engine T) (fs : SourceMap)
    (tmpl : String) (nh : Bool) (files : List String) (m : String)
    (hne : files ≠ []) (hp : eng.parse tmpl = .error m) :
    mainRun eng fs tmpl nh files = ([], .error .templateParse) :=
  mainRun_parseErr eng fs nh hne hp

/-- Claim C4, witness: the amended theorem at the never-parsing engine over
two sources. -/
theorem template_error_c4_witness :
    mainRun badParseEngine abFs "x" false ["A", "B"]
      = ([], .error .templateParse) :=
  template_error_c4 badParseEngine abFs "x" false ["A", "B"]
    "Failed to parse template" (by decide) rfl

/-- Claim C5: when an executed command's exit status indicates failure, the
row fails with the execution error carrying that exit status and the
captured stderr, the row's trace stops at the command invocation (no output
printed, no later row touched), and — lifted to a full run in indexed mode
with that row first — the run's error wraps the same execution error with
the source name and no later source is ever opened. -/
theorem cmd_failure_c5 {T : Type} (eng : Engine T) (fs : SourceMap)
    (tmpl : String) (hdrs : Option (List String)) (record : List String)
    (rest : List (Except String (List String))) (i : Nat) (t : T)
    (c : String) (out : ExecOutput)
    (hp : eng.parse tmpl = .ok t)
    (hr : eng.render t (rowCtx hdrs record) = .ok c)
    (he : eng.exec c = .ok out)
    (hs : out.status ≠ 0) :
    processRows eng tmpl hdrs (.ok record :: rest) i
      = ([Event.traceLine i c, Event.execCmd c],
         .error (.cmdFailed i out.status out.stderr))
    ∧ (hdrs = none →
        ∀ (fA : String) (moreFiles : List String),
          fs fA = some (.ok record :: rest) →
          mainRun eng fs tmpl true (fA :: moreFiles)
            = ([Event.openFile fA, Event.traceLine 0 c, Event.execCmd c],
               .error (.inFile fA (.cmdFailed 0 out.status out.stderr)))
          ∧ ∀ g, Event.openFile g ∈ (mainRun eng fs tmpl true (fA :: moreFiles)).1 →
              g = fA) := by
  constructor
  · rw [processRows_execErr eng rest hp hr (execute_command_fail eng i he hs)]
  · rintro rfl fA moreFiles hfs
    have hpf : process_file eng fs tmpl false fA
        = ([Event.openFile fA, Event.traceLine 0 c, Event.execCmd c],
           .error (.cmdFailed 0 out.status out.stderr)) := by
      rw [process_file_some eng tmpl false hfs, process_reader_noHeader]
      rw [processRows_execErr eng rest hp hr (execute_command_fail eng 0 he hs)]
    have hmain : mainRun eng fs tmpl true (fA :: moreFiles)
        = processFiles eng fs ⟨tmpl, false⟩ (fA :: moreFiles) :=
      mainRun_ok eng fs true (List.cons_ne_nil fA moreFiles) hp
    refine ⟨?_, ?_⟩
    · rw [hmain, processFiles_consErr eng moreFiles hpf]
    · intro g hg
      rw [hmain] at hg
      exact processFiles_err_open_only_head eng fs ⟨tmpl, false⟩ fA moreFiles
        _ _ hpf g hg

/-- Claim C5, witness: with the failing spawner (exit 1, stderr "oops")
over sources A and B, the run stops at row 0 of A carrying status 1 and
"oops", and B is never opened. -/
theorem cmd_failure_c5_witness :
    mainRun failEngine twoRowFs "T" true ["A", "B"]
      = ([Event.openFile "A", Event.traceLine 0 "echo a", Event.execCmd "echo a"],
         .error (.inFile "A" (.cmdFailed 0 1 "oops")))
    ∧ ∀ g, Event.openFile g ∈ (mainRun failEngine twoRowFs "T" true ["A", "B"]).1 →
        g = "A" := by
  have h := cmd_failure_c5 failEngine twoRowFs "T" none ["a"] [.ok ["b"]] 0 ()
    "echo a" ⟨1, "", "oops"⟩ rfl (by decide) (by decide) (by decide)
  have h2 := h.2 rfl "A" ["B"] (by decide)
  exact h2

/-- Claim C6 (spec-modelled renderer: minijinja is not under src/, the spec
fixes that it "must fail deterministically (RenderError) if the context
lacks a variable the template references"): when the template references a
field the row context lacks, rendering fails — deterministically, since the
renderer is a pure function — and the row's render failure aborts the
remaining rows: the loop returns the render error at that row with an empty
trace, independent of all later rows. -/
theorem missing_variable_c6 (parse : String → Except String (List Chunk))
    (exec : String → Except String ExecOutput) (ts : String)
    (hdrs : Option (List String)) (record : List String)
    (rest : List (Except String (List String))) (i : Nat)
    (t : List Chunk) (n : String)
    (hp : parse ts = .ok t)
    (href : Chunk.ref n ∈ t)
    (hmiss : hmFind (rowCtx hdrs record) n = none) :
    ∃ m, renderChunks t (rowCtx hdrs record) = .error m
      ∧ processRows (mkRenderEngine parse exec) ts hdrs (.ok record :: rest) i
          = ([], .error (.renderErr i m)) := by
  obtain ⟨m, hm⟩ := renderChunks_missing t (rowCtx hdrs record) n href hmiss
  refine ⟨m, hm, ?_⟩
  exact processRows_renderErr (mkRenderEngine parse exec) rest i hp hm

/-- Claim C6, witness: the template `echo {{row.name}}` over a header
`["a"]` — the context lacks `name`, rendering fails and the second row is
never processed. -/
theorem missing_variable_c6_witness :
    renderChunks [Chunk.lit "echo ", Chunk.ref "name"]
        (rowCtx (some ["a"]) ["v"])
      = .error "undefined variable name"
    ∧ processRows
        (mkRenderEngine (fun _ => .ok [Chunk.lit "echo ", Chunk.ref "name"])
          okExec)
        "echo {{row.name}}" (some ["a"]) [.ok ["v"], .ok ["w"]] 0
      = ([], .error (.renderErr 0 "undefined variable name")) := by
  have h := missing_variable_c6
    (fun _ => .ok [Chunk.lit "echo ", Chunk.ref "name"]) okExec
    "echo {{row.name}}" (some ["a"]) ["v"] [.ok ["w"]] 0
    [Chunk.lit "echo ", Chunk.ref "name"] "name" rfl (by decide) (by decide)
  obtain ⟨m, hm, hrows⟩ := h
  have hme : m = "undefined variable name" := by
    have : renderChunks [Chunk.lit "echo ", Chunk.ref "name"]
        (rowCtx (some ["a"]) ["v"]) = .error "undefined variable name" := by
      decide
    rw [this] at hm
    exact (Except.error.inj hm).symm
  subst hme
  exact ⟨hm, hrows⟩

/-- Claim C7: in named mode a record with fewer fields than the header is
not an error: every header position at or past the row's length is bound
to the empty string, and the row is processed exactly like any other —
context built, rendered, executed — with processing continuing into the
remaining rows. -/
theorem short_row_c7 {T : Type} (eng : Engine T) (tmpl : String)
    (H R : List String) (rest : List (Except String (List String)))
    (i : Nat) (t : T) (c : String) (out : ExecOutput)
    (hshort : R.length < H.length)
    (hp : eng.parse tmpl = .ok t)
    (hr : eng.render t (create_named_context H R) = .ok c)
    (he : eng.exec c = .ok out) (hs : out.status = 0) :
    (∀ (j : Nat) (hj : j < H.length), R.length ≤ j →
        hmFind (create_named_context H R) (H.get ⟨j, hj⟩) = some "")
    ∧ processRows eng tmpl (some H) (.ok R :: rest) i
        = ([Event.traceLine i c, Event.execCmd c]
            ++ (if strTrim out.stdout = "" then [] else [Event.printOut out.stdout])
            ++ (processRows eng tmpl (some H) rest (i + 1)).1,
           (processRows eng tmpl (some H) rest (i + 1)).2) := by
  constructor
  · intro j hj hR
    exact create_named_context_trailing H R j hj hR
  · have hr' : eng.render t (rowCtx (some H) R) = .ok c := hr
    rw [processRows_stepOk eng rest hp hr' (execute_command_ok eng i he hs)]

/-- Claim C7, witness: header `["a", "b"]`, short row `["x"]` — `b` binds
to `""` and the row executes normally, processing continuing to the next
row. -/
theorem short_row_c7_witness :
    hmFind (create_named_context ["a", "b"] ["x"]) "b" = some ""
    ∧ processRows constEngine "T" (some ["a", "b"]) [.ok ["x"]] 0
        = ([Event.traceLine 0 "echo hi", Event.execCmd "echo hi"], .ok ()) := by
  have h := short_row_c7 constEngine "T" ["a", "b"] ["x"] [] 0 () "echo hi"
    ⟨0, "", ""⟩ (by decide) rfl (by decide) (by decide) (by decide)
  constructor
  · have := h.1 1 (by decide) (by decide)
    simpa using this
  · rw [h.2]
    decide

/-- Claim C8: a command that exits successfully prints its captured
standard output exactly when that output is non-empty after trimming, and
what is printed is the original untrimmed output; nothing else is printed
on success — in particular nothing from the command's standard error. -/
theorem success_output_c8 {T : Type} (eng : Engine T) (c : String) (i : Nat)
    (out : ExecOutput) (he : eng.exec c = .ok out) (hs : out.status = 0) :
    (execute_command eng c i).2 = .ok ()
    ∧ (execute_command eng c i).1.filter
        (fun e => match e with | Event.printOut _ => true | _ => false)
      = (if strTrim out.stdout = "" then [] else [Event.printOut out.stdout])
    ∧ ∀ s, Event.printOut s ∈ (execute_command eng c i).1 →
        s = out.stdout ∧ strTrim out.stdout ≠ "" := by
  rw [execute_command_ok eng i he hs]
  by_cases ht : strTrim out.stdout = ""
  · refine ⟨rfl, by simp [ht, List.filter], ?_⟩
    intro s hs'
    simp [ht] at hs'
  · refine ⟨rfl, by simp [ht, List.filter], ?_⟩
    intro s hs'
    simp [ht] at hs'
    exact ⟨hs', ht⟩

/-- Claim C8, witness: a command printing `" hi\n"` (non-empty after
trimming) has exactly that untrimmed text printed, stderr `"warn"`
nowhere. -/
theorem success_output_c8_witness :
    (execute_command outEngine "echo hi" 0).2 = .ok ()
    ∧ (execute_command outEngine "echo hi" 0).1.filter
        (fun e => match e with | Event.printOut _ => true | _ => false)
      = [Event.printOut " hi\n"]
    ∧ ∀ s, Event.printOut s ∈ (execute_command outEngine "echo hi" 0).1 →
        s = " hi\n" ∧ strTrim " hi\n" ≠ "" := by
  have h := success_output_c8 outEngine "echo hi" 0 ⟨0, " hi\n", "warn"⟩
    (by decide) (by decide)
  refine ⟨h.1, ?_, h.2.2⟩
  rw [h.2.1]
  decide

/-- Claim C9: a run over a single empty source executes zero commands and
succeeds — the trace holds only the file open, in header mode and
no-header mode alike. -/
theorem empty_source_c9 {T : Type} (eng : Engine T) (fs : SourceMap)
    (tmpl f : String) (nh : Bool) (t : T)
    (hp : eng.parse tmpl = .ok t) (hfs : fs f = some []) :
    mainRun eng fs tmpl nh [f] = ([Event.openFile f], .ok ()) := by
  have hpf : process_file eng fs tmpl (!nh) f = ([Event.openFile f], .ok ()) := by
    rw [process_file_some eng tmpl (!nh) hfs, process_reader_empty]
  rw [mainRun_ok eng fs nh (List.cons_ne_nil f []) hp]
  rw [processFiles_consOk eng [] hpf, processFiles_nil]
  simp

/-- Claim C9, witness: the theorem at the empty source A, once per header
mode. -/
theorem empty_source_c9_witness :
    mainRun echoEngine emptyAFs "T" false ["A"] = ([Event.openFile "A"], .ok ())
    ∧ mainRun echoEngine emptyAFs "T" true ["A"] = ([Event.openFile "A"], .ok ()) :=
  ⟨empty_source_c9 echoEngine emptyAFs "T" "A" false () rfl (by decide),
   empty_source_c9 echoEngine emptyAFs "T" "A" true () rfl (by decide)⟩

/-- Claim C10: once `CsvProcessor::new` accepted the template text, the
per-row re-parse of the same stored text never fails — parsing is a
deterministic function, so the loop's template-parse error branch is
unreachable, and every row failure is a read, render or execution
failure. -/
theorem reparse_unreachable_c10 {T : Type} (eng : Engine T) (ts : String)
    (hh : Bool) (p : CsvProcessor)
    (hnew : CsvProcessor.new eng ts hh = .ok p) :
    ∀ (hdrs : Option (List String))
      (rows : List (Except String (List String))) (i j : Nat),
      (processRows eng ts hdrs rows i).2 ≠ .error (.templateReparse j) := by
  obtain ⟨t, hp⟩ := new_ok_parse_ok hnew
  intro hdrs rows
  induction rows with
  | nil =>
    intro i j
    rw [processRows_nil]
    simp
  | cons r rest ih =>
    intro i j
    rcases r with m | record
    · rw [processRows_readErr]
      simp
    · rcases hr : eng.render t (rowCtx hdrs record) with m | c
      · rw [processRows_renderErr eng rest i hp hr]
        simp
      · rcases he : eng.exec c with m | out
        · rw [processRows_execErr eng rest hp hr (execute_command_spawnErr eng i he)]
          simp
        · by_cases hst : out.status = 0
          · rw [processRows_stepOk eng rest hp hr (execute_command_ok eng i he hst)]
            exact ih (i + 1) j
          · rw [processRows_execErr eng rest hp hr
              (execute_command_fail eng i he hst)]
            simp

/-- Claim C10, witness: the theorem at the echo engine (whose construction
succeeds) over a sample row list. -/
theorem reparse_unreachable_c10_witness :
    (processRows echoEngine "T" none [.ok ["a"], .ok ["b"]] 0).2
      ≠ .error (.templateReparse 0) :=
  reparse_unreachable_c10 echoEngine "T" true ⟨"T", true⟩ rfl none
    [.ok ["a"], .ok ["b"]] 0 0

end Csvargs
